import Mathlib

/-
Verification of the scheduling backend (tools.py) of the ai-scheduling-agent
repository: a shallow embedding of the data model, the greedy heuristic
assigner (build_basic_schedule), the employee filter (_filter_employees),
the CP-SAT model construction (build_optimized_schedule_cp), the schema
validator (validate_schema) and the unified dispatcher (build_schedule),
together with theorems settling the specification claims.

Conventions of the embedding:
- Python dict fields that may be absent are Option fields; every read site
  applies the same default the Python code passes to dict.get.
- Python float arithmetic on the work-percentage targets is modelled
  exactly: wp/100 and the subsequent multiplication by the integer horizon
  are IEEE-754 binary64 operations (round to nearest, ties to even),
  implemented over exact integers (round64 below), and int() truncates the
  resulting dyadic rational.  Comparisons between a Python int and a float
  are exact in Python and are modelled as exact rational comparisons.
- The relaxed work-percentage branch multiplies the integer target by the
  float literals 0.95/1.05 and hands the resulting float bound to the
  CP-SAT python layer, which validates linear bounds as int64 and raises
  TypeError on any float; the solver relation below therefore maps that
  branch to a raised exception, not to a posted band.
- The external CP-SAT solver is otherwise modelled relationally: a
  successful solve returns the readout of some assignment satisfying every
  posted constraint; an infeasible model returns the tagged error message.
- Object identity (for the aliasing/copy-safety claim) is modelled by a
  separate object-graph representation in which every mutable Python dict
  carries a numeric object id; json.loads(json.dumps(...)) allocates fresh
  ids from a base supply.
-/

set_option maxHeartbeats 1000000
set_option maxRecDepth 4000
set_option synthInstance.maxSize 2048
set_option synthInstance.maxHeartbeats 1000000

/-- Availability sub-record of an employee (availability dict in the schema). -/
structure Availability where
  unavailable_days : List String := []
  unavailable_times : List String := []
  preferred_shifts : List String := []
  deriving DecidableEq, Repr

/-- An employee record. Option fields model dict keys that may be absent. -/
structure Employee where
  name : String
  employment_type : Option String := none
  work_percentage : Option Nat := none
  experience_years : Option Nat := none
  senior : Bool := false
  roles_primary : List String := []
  availability : Availability := {}
  deriving DecidableEq, Repr

/-- e.get("work_percentage", 100). -/
def Employee.wpD (e : Employee) : Nat := e.work_percentage.getD 100

/-- e.get("experience_years", 0). -/
def Employee.expD (e : Employee) : Nat := e.experience_years.getD 0

/-- A shift definition. min_staff is optional: the code defaults it to 1. -/
structure Shift where
  name : String
  hours : Nat
  min_staff : Option Nat := none
  required_roles : List (String × Nat) := []
  deriving DecidableEq, Repr

instance : Inhabited Shift := ⟨{ name := "", hours := 0 }⟩

/-- shift.get("min_staff", 1). -/
def Shift.minStaffD (s : Shift) : Nat := s.min_staff.getD 1

/-- The input schema. company_name/opening_hours only matter to the
validator; days is optional, defaulting to the full week. -/
structure Schema where
  company_name : Option String := none
  has_opening_hours : Bool := false
  employees : List Employee := []
  shift_structure : List Shift := []
  days : Option (List String) := none
  deriving DecidableEq, Repr

/-- The default week used by schema.get("days", [...]). -/
def defaultWeek : List String :=
  ["Monday", "Tuesday", "Wednesday", "Thursday", "Friday", "Saturday", "Sunday"]

/-- schema.get("days", default week). -/
def Schema.daysD (s : Schema) : List String := s.days.getD defaultWeek

instance : Inhabited Employee := ⟨{ name := "" }⟩

/-- Indexing helper for employees. -/
def Schema.empAt (s : Schema) (i : Nat) : Employee := s.employees.getD i default

/-- Indexing helper for shifts. -/
def Schema.shiftAt (s : Schema) (i : Nat) : Shift := s.shift_structure.getD i default

-- ------------------------------------------------------------------
-- Exact model of the IEEE-754 binary64 arithmetic the code performs
-- ------------------------------------------------------------------

/-- Fuel-driven floor of log2 (log2fuel n n computes it for n ≥ 1),
structurally recursive so the kernel can evaluate it. -/
def log2fuel : Nat → Nat → Nat
  | 0, _ => 0
  | fuel + 1, n => if n ≤ 1 then 0 else log2fuel fuel (n / 2) + 1

/-- IEEE-754 binary64 rounding (to nearest, ties to even) of the positive
rational a/b, for values in the normal range (the schema domain): returns
(m, e) with value m·2^e and 2^52 ≤ m < 2^53.  The scaled numerator frames
the quotient in [2^52, 2^53), rounding is performed on the exact rational,
and a carry to 2^53 renormalises. -/
def round64 (a b : Nat) : Nat × Int :=
  if a = 0 ∨ b = 0 then (0, 0) else
  let t := 54 + log2fuel b b
  let q := a * 2 ^ t / b
  let L := log2fuel q q
  let d := L - 52
  let den := b * 2 ^ d
  let num := a * 2 ^ t
  let q2 := num / den
  let r2 := num % den
  let m := if den < 2 * r2 then q2 + 1
           else if 2 * r2 < den then q2
           else if q2 % 2 = 0 then q2 else q2 + 1
  if m = 2 ^ 53 then (2 ^ 52, (d : Int) - (t : Int) + 1) else (m, (d : Int) - (t : Int))

/-- Binary64 multiplication of a double by a Python int (exactly converted
to double first, exact for the horizon sizes at hand): round the exact
product back to 53 bits. -/
def mulRound (x : Nat × Int) (n : Nat) : Nat × Int :=
  if x.1 = 0 ∨ n = 0 then (0, 0) else
  let r := round64 (x.1 * n) 1
  (r.1, r.2 + x.2)

/-- Python int() truncation of a nonnegative dyadic rational m·2^e. -/
def truncDyadic (x : Nat × Int) : Nat := x.1 * 2 ^ x.2.toNat / 2 ^ (-x.2).toNat

/-- Exact Python comparison of an int with a nonnegative float m·2^e
(Python compares int to float exactly, without converting the int). -/
def ltIntDyadic (a : Nat) (x : Nat × Int) : Prop :=
  a * 2 ^ (-x.2).toNat < x.1 * 2 ^ x.2.toNat

instance ltIntDyadicDecidable (a : Nat) (x : Nat × Int) : Decidable (ltIntDyadic a x) := by
  unfold ltIntDyadic
  infer_instance

/-- The float (work_percentage / 100) * total as the code computes it. -/
def pyTargetFloat (wp tot : Nat) : Nat × Int := mulRound (round64 wp 100) tot

/-- int((work_percentage / 100) * total): binary64 division, binary64
multiplication, truncation — e.g. 28 for wp = 29, tot = 100, one below the
exact floor 29, because 29/100 rounds below 0.29. -/
def pyTargetHours (wp tot : Nat) : Nat := truncDyadic (pyTargetFloat wp tot)

-- ------------------------------------------------------------------
-- Greedy heuristic: build_basic_schedule
-- ------------------------------------------------------------------

/-- One (day, shift) task enumerated by build_basic_schedule:
(day, shift["name"], shift["hours"]). -/
structure GreedyTask where
  day : String
  shiftName : String
  hours : Nat
  deriving DecidableEq, Repr

/-- The tasks in their pre-shuffle enumeration order
(for day in days: for shift in shift_structure). -/
def canonicalTasks (sch : Schema) : List GreedyTask :=
  sch.daysD.flatMap fun d => sch.shift_structure.map fun s => ⟨d, s.name, s.hours⟩

/-- One output entry: {"shift": name, "employee": name-or-None}. -/
structure ScheduleEntry where
  shift : String
  employee : Option String
  deriving DecidableEq, Repr

/-- min_staff_map built by the dict comprehension
{s["name"]: s.get("min_staff", 1) for s in shift_structure}: a later
duplicate shift name overwrites an earlier one. -/
def minStaffOf (shifts : List Shift) (n : String) : Nat :=
  ((shifts.reverse.find? fun s => s.name == n).map Shift.minStaffD).getD 1

/-- total_required_hours: Σ over all (day, shift) pairs of shift.hours. -/
def totalRequiredHours (sch : Schema) : Nat :=
  sch.daysD.length * (sch.shift_structure.map Shift.hours).sum

/-- The candidate pool for one task: employee indices (in dict insertion
order) that are available that day and shift and still below their target
hours.  assigned_hours < (wp/100)*total compares the exact int against the
binary64 value of the float target, as Python does. -/
def greedyCandidates (emps : List Employee) (asg : List Nat) (tot : Nat)
    (day shiftName : String) : List Nat :=
  (List.range emps.length).filter fun i =>
    let e := emps.getD i default
    decide (day ∉ e.availability.unavailable_days ∧
            shiftName ∉ e.availability.unavailable_times ∧
            ltIntDyadic (asg.getD i 0) (pyTargetFloat e.wpD tot))

/-- Python min(candidates, key=assigned_hours): the first candidate with
minimal assigned hours (strict comparison keeps the earlier one on ties). -/
def pickMin (asg : List Nat) (c : Nat) (cs : List Nat) : Nat :=
  cs.foldl (fun best i => if asg.getD i 0 < asg.getD best 0 then i else best) c

/-- The inner for _ in range(min_staff) loop of build_basic_schedule:
either appends the chosen least-loaded candidate and charges the shift
hours to them, or appends one absent entry and stops. -/
def assignLoop (emps : List Employee) (shiftName : String) (hours : Nat) :
    Nat → List Nat → List Nat → List ScheduleEntry × List Nat
  | 0, _, asg => ([], asg)
  | _ + 1, [], asg => ([⟨shiftName, none⟩], asg)
  | k + 1, c :: cs, asg =>
    let chosen := pickMin asg c cs
    let asg' := asg.set chosen (asg.getD chosen 0 + hours)
    let r := assignLoop emps shiftName hours k ((c :: cs).erase chosen) asg'
    (⟨shiftName, some (emps.getD chosen default).name⟩ :: r.1, r.2)

/-- Processing of one task: the empty-pool pre-check appends a single
absent entry; otherwise the min_staff loop runs. -/
def processTask (emps : List Employee) (shifts : List Shift) (tot : Nat)
    (asg : List Nat) (t : GreedyTask) : List ScheduleEntry × List Nat :=
  let cands := greedyCandidates emps asg tot t.day t.shiftName
  match cands with
  | [] => ([⟨t.shiftName, none⟩], asg)
  | c :: cs => assignLoop emps t.shiftName t.hours (minStaffOf shifts t.shiftName) (c :: cs) asg

/-- Folding all tasks in the given (shuffled) order, tagging each entry
with its day, in append order. -/
def runTasks (emps : List Employee) (shifts : List Shift) (tot : Nat) :
    List GreedyTask → List Nat → List (String × ScheduleEntry)
  | [], _ => []
  | t :: ts, asg =>
    let r := processTask emps shifts tot asg t
    r.1.map (fun en => (t.day, en)) ++ runTasks emps shifts tot ts r.2

/-- build_basic_schedule, parameterised by the post-shuffle task order.
The per-day lists of the returned dict are the entries tagged with that
day, in this flat append order. -/
def build_basic_schedule (sch : Schema) (order : List GreedyTask) :
    List (String × ScheduleEntry) :=
  runTasks sch.employees sch.shift_structure (totalRequiredHours sch) order
    (List.replicate sch.employees.length 0)

-- ------------------------------------------------------------------
-- Employee filter: _filter_employees (value level)
-- ------------------------------------------------------------------

/-- _filter_employees at the value level: keep employees strictly above the
optional thresholds (work_percentage first, then experience_years), leave
everything else unchanged.  Object-identity aspects of the json round-trip
are modelled separately below. -/
def _filter_employees (sch : Schema) (wpT expT : Option Int) : Schema :=
  let emps := sch.employees
  let emps1 := match wpT with
    | some t => emps.filter fun e => decide (t < (e.wpD : Int))
    | none => emps
  let emps2 := match expT with
    | some t => emps1.filter fun e => decide (t < (e.expD : Int))
    | none => emps1
  { sch with employees := emps2 }

-- ------------------------------------------------------------------
-- CP model: build_optimized_schedule_cp
-- ------------------------------------------------------------------

/-- Option set forwarded to build_optimized_schedule_cp, with the Python
defaults.  fairness and fairness_weight shape only the objective, which
selects among satisfying assignments and never changes the feasible set. -/
structure CPOptions where
  relax_work_percentage : Bool := false
  relax_coverage : Bool := false
  relax_availability : Bool := false
  fairness : Bool := true
  fairness_weight : Int := 1
  rest_constraint : Bool := true
  seniority : Bool := false
  deriving DecidableEq, Repr

/-- Number of employees assigned to slot (d, s) under assignment X. -/
def countAssigned (sch : Schema) (X : Nat → Nat → Nat → Bool) (d s : Nat) : Nat :=
  (List.range sch.employees.length).countP fun e => X e d s

/-- Number of employees assigned to slot (d, s) whose roles_primary
contains the given role. -/
def countRoleAssigned (sch : Schema) (X : Nat → Nat → Nat → Bool)
    (d s : Nat) (role : String) : Nat :=
  (List.range sch.employees.length).countP fun e =>
    X e d s && (sch.empAt e).roles_primary.contains role

/-- Constraint block 1: per-slot headcount coverage, posted only when
relax_coverage is false. -/
def coverageConstraints (sch : Schema) (relax_coverage : Bool)
    (X : Nat → Nat → Nat → Bool) : Prop :=
  relax_coverage = false →
    ∀ d, d < sch.daysD.length → ∀ s, s < sch.shift_structure.length →
      (sch.shiftAt s).minStaffD ≤ countAssigned sch X d s

/-- Constraint block 2: availability, posted only when relax_availability
is false: X[e,d,s] = 0 on unavailable days or shift names. -/
def availabilityConstraints (sch : Schema) (relax_availability : Bool)
    (X : Nat → Nat → Nat → Bool) : Prop :=
  relax_availability = false →
    ∀ e, e < sch.employees.length → ∀ d, d < sch.daysD.length →
      ∀ s, s < sch.shift_structure.length →
        (sch.daysD.getD d "" ∈ (sch.empAt e).availability.unavailable_days ∨
         (sch.shiftAt s).name ∈ (sch.empAt e).availability.unavailable_times) →
          X e d s = false

/-- Constraint block 2b: role coverage, always posted. -/
def roleConstraints (sch : Schema) (X : Nat → Nat → Nat → Bool) : Prop :=
  ∀ d, d < sch.daysD.length → ∀ s, s < sch.shift_structure.length →
    ∀ p ∈ (sch.shiftAt s).required_roles,
      p.2 ≤ countRoleAssigned sch X d s p.1

/-- Constraint block 2c: rest periods — the code posts the adjacent-slot
exclusions only when rest_constraint is set AND the shift structure has
more than one shift; the next slot is the same day's next shift, or the
first shift of the next day after the last shift, skipped past the final
day. -/
def restConstraints (sch : Schema) (rest_constraint : Bool)
    (X : Nat → Nat → Nat → Bool) : Prop :=
  rest_constraint = true → 1 < sch.shift_structure.length →
    ∀ e, e < sch.employees.length → ∀ d, d < sch.daysD.length →
      ∀ s, s < sch.shift_structure.length →
        (if s < sch.shift_structure.length - 1 then d else d + 1) < sch.daysD.length →
          ¬(X e d s = true ∧
            X e (if s < sch.shift_structure.length - 1 then d else d + 1)
              ((s + 1) % sch.shift_structure.length) = true)

/-- Constraint block 2d: seniority, posted only when the flag is set, and
only on shifts with min_staff > 2. -/
def seniorityConstraints (sch : Schema) (seniority : Bool)
    (X : Nat → Nat → Nat → Bool) : Prop :=
  seniority = true →
    ∀ d, d < sch.daysD.length → ∀ s, s < sch.shift_structure.length →
      2 < (sch.shiftAt s).minStaffD →
        1 ≤ (List.range sch.employees.length).countP fun e =>
          X e d s && ((sch.empAt e).senior || decide (3 ≤ (sch.empAt e).expD))

/-- total_schedule_hours = len(days) * sum of shift hours. -/
def totalScheduleHours (sch : Schema) : Nat :=
  sch.daysD.length * (sch.shift_structure.map Shift.hours).sum

/-- int((work_percentage / 100) * total_schedule_hours), computed in
binary64 float arithmetic exactly as the code does, capped at the 40-hour
weekly cap. -/
def targetHoursCP (sch : Schema) (e : Nat) : Nat :=
  min (pyTargetHours (sch.empAt e).wpD (totalScheduleHours sch)) 40

/-- The employee's summed assigned hours under assignment X. -/
def assignedHoursCP (sch : Schema) (X : Nat → Nat → Nat → Bool) (e : Nat) : Nat :=
  ((List.range sch.daysD.length).map fun d =>
    ((List.range sch.shift_structure.length).map fun s =>
      if X e d s then (sch.shiftAt s).hours else 0).sum).sum

/-- Constraint block 3: work-percentage hours, posted as exact equality
with the truncated capped float target when relax_work_percentage is
false.  When it is true the code multiplies the integer target by the
float literals 0.95/1.05 and hands float bounds to the backend, which
rejects them with TypeError whenever the horizon is nonempty (see the
solver relation below), so no band constraint is ever posted; with an
empty horizon the comparison degenerates to a boolean constant True and
likewise posts nothing. -/
def hoursConstraints (sch : Schema) (relax_work_percentage : Bool)
    (X : Nat → Nat → Nat → Bool) : Prop :=
  relax_work_percentage = false →
    ∀ e, e < sch.employees.length →
      assignedHoursCP sch X e = targetHoursCP sch e

/-- The conjunction of every constraint family build_optimized_schedule_cp
posts to the CP-SAT model.  The fairness objective (minimise the daily
head-count spread) only selects among these assignments: the auxiliary
staff_d / max_staff / min_staff / spread variables are always satisfiable
given X, so the feasible set in X is exactly this predicate. -/
def cpSatisfies (sch : Schema) (opts : CPOptions) (X : Nat → Nat → Nat → Bool) : Prop :=
  coverageConstraints sch opts.relax_coverage X ∧
  availabilityConstraints sch opts.relax_availability X ∧
  roleConstraints sch X ∧
  restConstraints sch opts.rest_constraint X ∧
  seniorityConstraints sch opts.seniority X ∧
  hoursConstraints sch opts.relax_work_percentage X

/-- The readout on OPTIMAL/FEASIBLE: for d, for s, for e with X=1, emit
{"shift": shift name, "employee": employee name} under day d; flat list of
(day, entry) pairs in emission order. -/
def cpOutput (sch : Schema) (X : Nat → Nat → Nat → Bool) :
    List (String × ScheduleEntry) :=
  (List.range sch.daysD.length).flatMap fun d =>
    (List.range sch.shift_structure.length).flatMap fun s =>
      (List.range sch.employees.length).filterMap fun e =>
        if X e d s then
          some (sch.daysD.getD d "", ⟨(sch.shiftAt s).name, some (sch.empAt e).name⟩)
        else none

-- ------------------------------------------------------------------
-- Results, validator, dispatcher
-- ------------------------------------------------------------------

/-- A result of build_schedule: a schedule payload (flat (day, entry)
list), a tagged error dict, or an uncaught Python exception propagating
out of the call. -/
inductive BuildResult where
  | schedule (entries : List (String × ScheduleEntry))
  | error (msg : String)
  | raised (exc : String)
  deriving DecidableEq, Repr

/-- Relational model of build_optimized_schedule_cp.  With
relax_work_percentage set and a nonempty employee/day/shift horizon, the
hours block evaluates 0.95 * target_hours to a Python float and
model.Add(total_assigned_hours >= that float) reaches the backend's int64
bound validation, which raises TypeError before anything is solved — the
call propagates the exception.  Otherwise, on a feasible model the solver
returns the readout of some satisfying assignment; on an infeasible model
the tagged error message. -/
def build_optimized_schedule_cp_spec (sch : Schema) (opts : CPOptions)
    (r : BuildResult) : Prop :=
  if opts.relax_work_percentage = true ∧ sch.employees ≠ [] ∧
      sch.daysD ≠ [] ∧ sch.shift_structure ≠ [] then
    r = .raised "TypeError"
  else
    (∃ X, cpSatisfies sch opts X ∧ r = .schedule (cpOutput sch X)) ∨
    (¬(∃ X, cpSatisfies sch opts X) ∧
      r = .error "No feasible schedule found with current constraints.")

/-- validate_schema: ordered warning list.  A missing dict key is modelled
by none / false; the employees presence-or-empty check collapses to
emptiness of the list. -/
def validate_schema (sch : Schema) : List String :=
  (if sch.company_name.isNone then ["Missing company_name."] else []) ++
  (if sch.has_opening_hours then [] else ["Missing opening_hours."]) ++
  (if sch.employees.isEmpty then ["Missing or empty employees list."] else []) ++
  sch.employees.flatMap fun e =>
    if e.employment_type.isNone then
      ["Employee " ++ e.name ++ " missing employment_type."]
    else []

/-- Relational model of build_schedule: filter first, then dispatch on the
method string; the greedy branch runs build_basic_schedule on some
permutation of the task enumeration (random.shuffle); an unknown method
yields the tagged error naming it, touching neither strategy. -/
def build_schedule_spec (sch : Schema) (method : String) (opts : CPOptions)
    (wpT expT : Option Int) (r : BuildResult) : Prop :=
  let fs := _filter_employees sch wpT expT
  if method = "greedy" then
    ∃ order, order.Perm (canonicalTasks fs) ∧ r = .schedule (build_basic_schedule fs order)
  else if method = "cp" then
    build_optimized_schedule_cp_spec fs opts r
  else
    r = .error ("Unknown method '" ++ method ++ "'")

-- ------------------------------------------------------------------
-- Object-graph model of _filter_employees (for the copy-safety claim)
-- ------------------------------------------------------------------

/-- An employee dict together with its Python object identity. -/
structure EmpObj where
  oid : Nat
  data : Employee
  deriving DecidableEq, Repr

/-- A shift dict together with its Python object identity. -/
structure ShiftObj where
  oid : Nat
  data : Shift
  deriving DecidableEq, Repr

/-- A schema whose mutable employee and shift dicts carry object ids. -/
structure SchemaObj where
  employees : List EmpObj := []
  shift_structure : List ShiftObj := []
  days : Option (List String) := none
  deriving DecidableEq, Repr

/-- Object ids of a schema's employee dicts. -/
def empOids (s : SchemaObj) : List Nat := s.employees.map EmpObj.oid

/-- Object ids of a schema's shift dicts. -/
def shiftOids (s : SchemaObj) : List Nat := s.shift_structure.map ShiftObj.oid

/-- All mutable-dict object ids of a schema. -/
def allOids (s : SchemaObj) : List Nat := empOids s ++ shiftOids s

/-- json.loads(json.dumps(schema)): same values, fresh object ids drawn
from the supply starting at base. -/
def jsonDeepCopy (s : SchemaObj) (base : Nat) : SchemaObj :=
  { employees := s.employees.enum.map fun p => ⟨base + p.1, p.2.data⟩,
    shift_structure :=
      s.shift_structure.enum.map fun p => ⟨base + s.employees.length + p.1, p.2.data⟩,
    days := s.days }

/-- _filter_employees at the object level: the employees list is filtered
from the caller's own employee dicts, the schema is json round-tripped
(fresh ids), and then the employees key of the copy is overwritten with
the filtered list of original dicts. -/
def filterEmployeesObj (s : SchemaObj) (wpT expT : Option Int) (base : Nat) : SchemaObj :=
  let emps := s.employees
  let emps1 := match wpT with
    | some t => emps.filter fun e => decide (t < (e.data.wpD : Int))
    | none => emps
  let emps2 := match expT with
    | some t => emps1.filter fun e => decide (t < (e.data.expD : Int))
    | none => emps1
  let copy := jsonDeepCopy s base
  { copy with employees := emps2 }

/-- The claim's ownership property: the result holds no mutable dict of
the caller's schema. -/
def sharesNoObjects (a b : SchemaObj) : Prop :=
  ∀ i ∈ allOids a, i ∉ allOids b

/-- dict.setdefault("min_staff", 1) on one shift dict value. -/
def setdefaultMinStaff (sh : Shift) : Shift :=
  { sh with min_staff := some (sh.min_staff.getD 1) }

/-- In-place mutation of every store cell whose object id is listed. -/
def mutateAt (ids : List Nat) (f : Shift → Shift) (σ : Nat → Shift) : Nat → Shift :=
  fun i => if i ∈ ids then f (σ i) else σ i

/-- Decidability of the posted-constraint predicate, for evaluation on
concrete schemas and assignments. -/
instance cpSatisfiesDecidable (sch : Schema) (opts : CPOptions)
    (X : Nat → Nat → Nat → Bool) : Decidable (cpSatisfies sch opts X) := by
  unfold cpSatisfies coverageConstraints availabilityConstraints roleConstraints
    restConstraints seniorityConstraints hoursConstraints
  infer_instance

/-- Decidability of the ownership property. -/
instance sharesNoObjectsDecidable (a b : SchemaObj) : Decidable (sharesNoObjects a b) := by
  unfold sharesNoObjects
  infer_instance

-- ------------------------------------------------------------------
-- Derived predicates and concrete instances used by the claims
-- ------------------------------------------------------------------

/-- The cyclic slot adjacency of the claims: shift s is followed by shift
s+1 of the same day, and the last shift of day d by the first shift of
day d+1; nothing follows the final day. -/
def adjacentSlots (sch : Schema) (d s d2 s2 : Nat) : Prop :=
  (d2 = d ∧ s2 = s + 1 ∧ s + 1 < sch.shift_structure.length) ∨
  (s = sch.shift_structure.length - 1 ∧ d2 = d + 1 ∧ d2 < sch.daysD.length ∧ s2 = 0)

/-- No employee is assigned to two adjacent shift slots. -/
def noAdjacentAssignments (sch : Schema) (X : Nat → Nat → Nat → Bool) : Prop :=
  ∀ e, e < sch.employees.length →
    ∀ d, d < sch.daysD.length → ∀ s, s < sch.shift_structure.length →
      ∀ d2, d2 < sch.daysD.length → ∀ s2, s2 < sch.shift_structure.length →
        adjacentSlots sch d s d2 s2 → ¬(X e d s = true ∧ X e d2 s2 = true)

/-- Decidability of the adjacency relation. -/
instance adjacentSlotsDecidable (sch : Schema) (d s d2 s2 : Nat) :
    Decidable (adjacentSlots sch d s d2 s2) := by
  unfold adjacentSlots
  infer_instance

/-- Decidability of adjacency freeness, for concrete evaluation. -/
instance noAdjacentAssignmentsDecidable (sch : Schema) (X : Nat → Nat → Nat → Bool) :
    Decidable (noAdjacentAssignments sch X) := by
  unfold noAdjacentAssignments
  infer_instance

/-- A one-employee, one-day, one-shift schema. -/
def schW1 : Schema :=
  { employees := [{ name := "Anna", work_percentage := some 100 }],
    shift_structure := [{ name := "Day", hours := 8, min_staff := some 1 }],
    days := some ["Monday"] }

/-- Scenario A of the spec: one day, one 8-hour shift of min_staff 2 and
no required roles, two full-percentage unrestricted employees.  The same
schema exhibits the greedy entry-count behaviour for min_staff 2. -/
def schA : Schema :=
  { employees := [{ name := "Anna", work_percentage := some 100 },
                  { name := "Ben", work_percentage := some 100 }],
    shift_structure := [{ name := "Day", hours := 8, min_staff := some 2 }],
    days := some ["Monday"] }

/-- One employee, one shift per day, two days: with a 100 percent work
percentage the hours constraint forces work on both consecutive days. -/
def schR : Schema :=
  { employees := [{ name := "Solo", work_percentage := some 100 }],
    shift_structure := [{ name := "N", hours := 8, min_staff := some 1 }],
    days := some ["Mon", "Tue"] }

/-- Two 50-percent employees, two shifts, one day: feasible under the
rest constraint. -/
def schW4 : Schema :=
  { employees := [{ name := "Ana", work_percentage := some 50 },
                  { name := "Bo", work_percentage := some 50 }],
    shift_structure := [{ name := "A", hours := 4, min_staff := some 1 },
                        { name := "B", hours := 4, min_staff := some 1 }],
    days := some ["Mon"] }

/-- The assignment putting employee 0 on shift 0 and employee 1 on shift 1. -/
def XW4 : Nat → Nat → Nat → Bool :=
  fun e _ s => (e == 0 && s == 0) || (e == 1 && s == 1)

/-- One employee with a primary role demanded by the single shift. -/
def schRole : Schema :=
  { employees := [{ name := "Anna", work_percentage := some 100,
                    roles_primary := ["Baker"] }],
    shift_structure := [{ name := "Day", hours := 8, min_staff := some 1,
                          required_roles := [("Baker", 1)] }],
    days := some ["Monday"] }

/-- Empty employees AND empty shift structure: the CP model has no
constraint at all. -/
def schE : Schema :=
  { employees := [], shift_structure := [], days := some ["Monday"] }

/-- Empty employees, nonempty shifts and days. -/
def schEmp1 : Schema :=
  { employees := [],
    shift_structure := [{ name := "Day", hours := 8 }],
    days := some ["Monday"] }

/-- An employee record with no experience_years key. -/
def empNoExp : Employee := { name := "Pat", senior := true, experience_years := none }

/-- A schema containing that employee. -/
def schP : Schema :=
  { employees := [empNoExp],
    shift_structure := [{ name := "Day", hours := 8 }],
    days := some ["Monday"] }

/-- A one-employee, one-shift object-level schema with ids 0 and 1. -/
def s3obj : SchemaObj :=
  { employees := [⟨0, { name := "Zed" }⟩],
    shift_structure := [⟨1, { name := "Day", hours := 8 }⟩] }

/-- One 29-percent employee over a 100-hour single-day horizon split into
a 28-hour and a 72-hour shift: Python's float target is 28, the exact
floor 29. -/
def schC1 : Schema :=
  { employees := [{ name := "Cam", work_percentage := some 29 }],
    shift_structure := [{ name := "S1", hours := 28, min_staff := some 1 },
                        { name := "S2", hours := 72, min_staff := some 1 }],
    days := some ["Monday"] }

/-- Coverage relaxed so the 72-hour shift may stay unstaffed; all other
options at their defaults (relax_work_percentage stays false). -/
def optsC1 : CPOptions := { relax_coverage := true }

/-- The assignment putting the sole employee on the 28-hour shift only. -/
def XC1 : Nat → Nat → Nat → Bool := fun e d s => e == 0 && d == 0 && s == 0

-- ------------------------------------------------------------------
-- Theorems
-- ------------------------------------------------------------------

/-- C1 counterexample: a successful solve at wp = 29 over a 100-hour
horizon.  Python evaluates int((29/100)*100) to 28 because 29/100 rounds
below 0.29, so the model posts assigned = 28, while the claim's formula
min(floor(29·100/100), 40) demands 29: the exhibited satisfying
assignment (a successful solve) works 28 hours, not 29. -/
theorem c1_counterexample :
    cpSatisfies schC1 optsC1 XC1 ∧
    optsC1.relax_work_percentage = false ∧
    assignedHoursCP schC1 XC1 0 = 28 ∧
    min ((schC1.empAt 0).wpD * totalScheduleHours schC1 / 100) 40 = 29 := by
  refine ⟨by decide, rfl, by decide, by decide⟩

/-- C1 amended: for every schema and employee, when relax_work_percentage
is false and the optimal solve succeeds, the employee's summed assigned
hours equal min(int((wp/100)·total_schedule_hours), 40) with the inner
expression computed in binary64 float arithmetic — one below the exact
floor whenever the float product rounds just under an integer — and with
total_schedule_hours = |days| × Σ shift.hours; the 40-hour cap applies
regardless of horizon length. -/
theorem c1_python_target_hours (sch : Schema) (opts : CPOptions)
    (X : Nat → Nat → Nat → Bool)
    (hrelax : opts.relax_work_percentage = false)
    (hsat : cpSatisfies sch opts X) :
    ∀ e, e < sch.employees.length →
      assignedHoursCP sch X e =
        min (pyTargetHours (sch.empAt e).wpD
          (sch.daysD.length * (sch.shift_structure.map Shift.hours).sum)) 40 := by
  intro e he
  have h := hsat.2.2.2.2.2 hrelax e he
  simpa [targetHoursCP, totalScheduleHours] using h

/-- Witness for C1 (amended) at a concrete satisfying schema and
assignment. -/
theorem c1_python_target_hours_witness :
    assignedHoursCP schW1 (fun _ _ _ => true) 0 =
      min (pyTargetHours (schW1.empAt 0).wpD
        (schW1.daysD.length * (schW1.shift_structure.map Shift.hours).sum)) 40 :=
  c1_python_target_hours schW1 {} (fun _ _ _ => true) rfl (by decide) 0 (by decide)

/-- C5: for every schema and options (both values of relax_coverage
included), every satisfying assignment of the optimal model meets role
coverage: each (day, shift) slot has at least min_count assigned employees
whose roles_primary contains the role, for every required role. -/
theorem c5_role_coverage (sch : Schema) (opts : CPOptions)
    (X : Nat → Nat → Nat → Bool) (hsat : cpSatisfies sch opts X) :
    ∀ d, d < sch.daysD.length → ∀ s, s < sch.shift_structure.length →
      ∀ p ∈ (sch.shiftAt s).required_roles,
        p.2 ≤ countRoleAssigned sch X d s p.1 :=
  hsat.2.2.1

/-- Witness for C5: the single Baker requirement is met on a concrete
schema, with relax_coverage at either value represented by its default. -/
theorem c5_role_coverage_witness :
    (1 : Nat) ≤ countRoleAssigned schRole (fun _ _ _ => true) 0 0 "Baker" :=
  c5_role_coverage schRole {} (fun _ _ _ => true) (by decide) 0 (by decide) 0 (by decide)
    ("Baker", 1) (by decide)

/-- C6: dispatching with a method that is neither "greedy" nor "cp" can
only produce the tagged error naming the invalid method — independently of
the schema and options, so neither strategy is consulted. -/
theorem c6_unknown_method (sch : Schema) (method : String) (opts : CPOptions)
    (wpT expT : Option Int) (r : BuildResult)
    (hg : method ≠ "greedy") (hc : method ≠ "cp") :
    build_schedule_spec sch method opts wpT expT r ↔
      r = .error ("Unknown method '" ++ method ++ "'") := by
  simp [build_schedule_spec, hg, hc]

/-- Witness for C6 at method "bogus". -/
theorem c6_unknown_method_witness :
    build_schedule_spec schW1 "bogus" {} none none (.error "Unknown method 'bogus'") :=
  (c6_unknown_method schW1 "bogus" {} none none _ (by decide) (by decide)).mpr rfl

/-- C10: an employee record lacking experience_years is excluded by the
filter for every experience threshold T ≥ 0 and every work-percentage
threshold, whatever the senior flag: the missing field reads as 0 and the
comparison is strict. -/
theorem c10_missing_experience_excluded (sch : Schema) (emp : Employee)
    (wpT : Option Int) (T : Int) (hT : 0 ≤ T)
    (hexp : emp.experience_years = none) :
    emp ∉ (_filter_employees sch wpT (some T)).employees := by
  intro hmem
  simp only [_filter_employees] at hmem
  have hlt := of_decide_eq_true (List.mem_filter.mp hmem).2
  simp only [Employee.expD, hexp, Option.getD_none, Nat.cast_zero] at hlt
  omega

/-- Witness for C10: the senior-flagged, experience-less employee is
dropped at threshold 0. -/
theorem c10_missing_experience_excluded_witness :
    empNoExp ∉ (_filter_employees schP none (some 0)).employees :=
  c10_missing_experience_excluded schP empNoExp none 0 (by decide) rfl

/-- C4 counterexample: with rest_constraint left at its default true but a
single-shift structure, the model of schR is satisfied by the all-true
assignment — a successful solve — although the sole employee works the last
shift of day 0 and the first shift of day 1, which are adjacent slots. -/
theorem c4_counterexample :
    cpSatisfies schR {} (fun _ _ _ => true) ∧
    ¬ noAdjacentAssignments schR (fun _ _ _ => true) := by
  constructor
  · decide
  · decide

/-- C4 amended: when rest_constraint is true AND the shift structure has
more than one shift (the only case in which the code posts the rest
exclusions), every satisfying assignment assigns no employee to two
adjacent shift slots under the cyclic adjacency. -/
theorem c4_rest_no_adjacent (sch : Schema) (opts : CPOptions)
    (X : Nat → Nat → Nat → Bool)
    (hrest : opts.rest_constraint = true)
    (hS : 1 < sch.shift_structure.length)
    (hsat : cpSatisfies sch opts X) :
    noAdjacentAssignments sch X := by
  intro e he d hd s hs d2 hd2 s2 hs2 hadj hboth
  have hrc := hsat.2.2.2.1 hrest hS e he d hd s hs
  rcases hadj with ⟨hd2d, hs2s, hlt⟩ | ⟨hslast, hd2d, hdlt, hs2z⟩
  · rw [hd2d, hs2s] at hboth
    have hif : (if s < sch.shift_structure.length - 1 then d else d + 1) = d := by
      have hsl : s < sch.shift_structure.length - 1 := by omega
      simp [hsl]
    rw [hif] at hrc
    have hmod : (s + 1) % sch.shift_structure.length = s + 1 := Nat.mod_eq_of_lt hlt
    exact hrc hd (by rw [hmod]; exact hboth)
  · rw [hd2d, hs2z] at hboth
    rw [hslast] at hboth hrc
    have hif : (if sch.shift_structure.length - 1 < sch.shift_structure.length - 1
        then d else d + 1) = d + 1 := by simp
    rw [hif] at hrc
    have hmod : (sch.shift_structure.length - 1 + 1) % sch.shift_structure.length = 0 := by
      have hsucc : sch.shift_structure.length - 1 + 1 = sch.shift_structure.length := by omega
      rw [hsucc, Nat.mod_self]
    rw [hd2d] at hdlt
    exact hrc hdlt (by rw [hmod]; exact hboth)

/-- Witness for C4 (amended): a concrete two-shift schema whose satisfying
assignment is certified adjacency-free. -/
theorem c4_rest_no_adjacent_witness : noAdjacentAssignments schW4 XW4 :=
  c4_rest_no_adjacent schW4 {} XW4 rfl (by decide) (by decide)

/-- C3 counterexample: with no thresholds and fresh ids from base 2, the
filtered schema still holds the caller's employee dict (object id 0), so
it shares a mutable object with the caller's schema. -/
theorem c3_counterexample :
    ¬ sharesNoObjects (filterEmployeesObj s3obj none none 2) s3obj := by decide

/-- C3 amended: the filter returns a schema whose shift_structure consists
of freshly allocated dicts only — disjoint from every caller-owned object —
so in-place min_staff defaulting over the returned shift dicts leaves every
caller-owned shift dict untouched; the returned employees list, however,
aliases the caller's original employee dicts rather than copying them. -/
theorem c3_filter_ownership (s : SchemaObj) (wpT expT : Option Int) (base : Nat)
    (hbase : ∀ i ∈ allOids s, i < base)
    (σ : Nat → Shift) (j : Nat) (hj : j ∈ shiftOids s) :
    (∀ i ∈ shiftOids (filterEmployeesObj s wpT expT base), base ≤ i ∧ i ∉ allOids s) ∧
    (∀ eo ∈ (filterEmployeesObj s wpT expT base).employees, eo ∈ s.employees) ∧
    mutateAt (shiftOids (filterEmployeesObj s wpT expT base)) setdefaultMinStaff σ j = σ j := by
  have hshift : ∀ i ∈ shiftOids (filterEmployeesObj s wpT expT base), base ≤ i := by
    intro i hi
    simp only [filterEmployeesObj, jsonDeepCopy, shiftOids, List.map_map, List.mem_map,
      Function.comp] at hi
    obtain ⟨p, hp, hpe⟩ := hi
    omega
  refine ⟨fun i hi => ⟨hshift i hi, fun hall => ?_⟩, ?_, ?_⟩
  · have h1 := hbase i hall
    have h2 := hshift i hi
    omega
  · intro eo h
    rcases expT with _ | T2 <;> rcases wpT with _ | T1 <;>
      simp only [filterEmployeesObj] at h
    · exact h
    · exact List.mem_of_mem_filter h
    · exact List.mem_of_mem_filter h
    · exact List.mem_of_mem_filter (List.mem_of_mem_filter h)
  · have hjb : j < base := hbase j (List.mem_append_right _ hj)
    have hnot : j ∉ shiftOids (filterEmployeesObj s wpT expT base) := by
      intro hmem
      have := hshift j hmem
      omega
    simp [mutateAt, hnot]

/-- Witness for C3 (amended) on the concrete one-employee schema. -/
theorem c3_filter_ownership_witness :
    (∀ i ∈ shiftOids (filterEmployeesObj s3obj none none 2), 2 ≤ i ∧ i ∉ allOids s3obj) ∧
    (∀ eo ∈ (filterEmployeesObj s3obj none none 2).employees, eo ∈ s3obj.employees) ∧
    mutateAt (shiftOids (filterEmployeesObj s3obj none none 2)) setdefaultMinStaff
      (fun _ => default) 1 = (fun _ => default) 1 :=
  c3_filter_ownership s3obj none none 2 (by decide) (fun _ => default) 1 (by decide)

/-- C7 (Scenario A): on the 1-day, single 8-hour "Day" shift of min_staff
2 with two unrestricted 100-percent employees, relax_work_percentage=True
makes the model build hand the float bound 0.95 * 8 to the backend's
int64-validated Add, which raises TypeError before solving — the raised
exception is the only result the solver relation admits, so the call does
not succeed and assigns nobody. -/
theorem c7_scenario_a_raises :
    build_optimized_schedule_cp_spec schA { relax_work_percentage := true }
      (.raised "TypeError") ∧
    ∀ r, build_optimized_schedule_cp_spec schA { relax_work_percentage := true } r →
      r = .raised "TypeError" := by
  constructor
  · simp [build_optimized_schedule_cp_spec, schA, Schema.daysD]
  · intro r h
    simpa [build_optimized_schedule_cp_spec, schA, Schema.daysD] using h

/-- With no employees every candidate pool is empty, so every task yields
exactly its absent entry, in task order. -/
theorem runTasks_no_employees (shifts : List Shift) (tot : Nat) :
    ∀ (order : List GreedyTask) (asg : List Nat),
      runTasks [] shifts tot order asg =
        order.map fun t => (t.day, ⟨t.shiftName, none⟩) := by
  intro order
  induction order with
  | nil => intro asg; rfl
  | cons t ts ih =>
    intro asg
    simp [runTasks, processTask, greedyCandidates, List.range_zero, ih]

/-- C8 counterexample: a schema with an empty employees list AND an empty
shift_structure has a CP model with no constraint, so the solver relation
admits the empty schedule as a successful result and rules out the
InfeasibleModel error message the claim demands. -/
theorem c8_counterexample :
    schE.employees = [] ∧
    build_optimized_schedule_cp_spec schE {} (.schedule []) ∧
    ¬ build_optimized_schedule_cp_spec schE {}
        (.error "No feasible schedule found with current constraints.") := by
  refine ⟨rfl, Or.inl ⟨fun _ _ _ => false, by decide, rfl⟩, ?_⟩
  rintro (⟨X, _, heq⟩ | ⟨hinf, _⟩)
  · exact BuildResult.noConfusion heq
  · exact hinf ⟨fun _ _ _ => false, by decide⟩

/-- C8 amended: for every schema with an empty employees list, (a) the
validator warns about the employees list, (b) the greedy strategy returns
one absent-marker slot per task whatever the shuffle order, and (c) —
provided days and shift_structure are nonempty, every (defaulted)
min_staff is at least 1 and coverage is not relaxed — the CP model is
infeasible, so the solver relation can only return the tagged failure. -/
theorem c8_empty_employees (sch : Schema) (order : List GreedyTask) (opts : CPOptions)
    (hemp : sch.employees = [])
    (hdays : sch.daysD ≠ [])
    (hshifts : sch.shift_structure ≠ [])
    (hms : ∀ sh ∈ sch.shift_structure, 1 ≤ sh.minStaffD)
    (hrc : opts.relax_coverage = false) :
    "Missing or empty employees list." ∈ validate_schema sch ∧
    build_basic_schedule sch order = (order.map fun t => (t.day, ⟨t.shiftName, none⟩)) ∧
    ¬ ∃ X, cpSatisfies sch opts X := by
  refine ⟨?_, ?_, ?_⟩
  · simp [validate_schema, hemp]
  · unfold build_basic_schedule
    rw [hemp]
    exact runTasks_no_employees sch.shift_structure (totalRequiredHours sch) order _
  · rintro ⟨X, hsat⟩
    have hd : 0 < sch.daysD.length := List.length_pos.mpr hdays
    have hs : 0 < sch.shift_structure.length := List.length_pos.mpr hshifts
    have hcov := hsat.1 hrc 0 hd 0 hs
    have hcnt : countAssigned sch X 0 0 = 0 := by
      simp [countAssigned, hemp]
    rw [hcnt] at hcov
    have hmem : sch.shiftAt 0 ∈ sch.shift_structure := by
      unfold Schema.shiftAt
      rw [List.getD_eq_getElem sch.shift_structure default hs]
      exact List.getElem_mem hs
    have := hms _ hmem
    omega

/-- Witness for C8 (amended) on a concrete schema with no employees, one
day and one shift without a min_staff key. -/
theorem c8_empty_employees_witness :
    "Missing or empty employees list." ∈ validate_schema schEmp1 ∧
    build_basic_schedule schEmp1 (canonicalTasks schEmp1) =
      ((canonicalTasks schEmp1).map fun t => (t.day, ⟨t.shiftName, none⟩)) ∧
    ¬ ∃ X, cpSatisfies schEmp1 {} X :=
  c8_empty_employees schEmp1 (canonicalTasks schEmp1) {} rfl (by decide) (by decide)
    (by decide) rfl

/-- Python min over a nonempty pool returns a pool member. -/
theorem pickMin_mem (asg : List Nat) :
    ∀ (cs : List Nat) (c : Nat), pickMin asg c cs ∈ c :: cs := by
  intro cs
  induction cs with
  | nil => intro c; simp [pickMin]
  | cons x xs ih =>
    intro c
    have hstep : pickMin asg c (x :: xs) =
        pickMin asg (if asg.getD x 0 < asg.getD c 0 then x else c) xs := rfl
    rw [hstep]
    rcases List.mem_cons.mp (ih (if asg.getD x 0 < asg.getD c 0 then x else c)) with h | h
    · rw [h]
      by_cases hlt : asg.getD x 0 < asg.getD c 0
      · rw [if_pos hlt]
        exact List.mem_cons_of_mem _ (List.mem_cons_self _ _)
      · rw [if_neg hlt]
        exact List.mem_cons_self _ _
    · exact List.mem_cons_of_mem _ (List.mem_cons_of_mem _ h)

/-- The min_staff loop emits at most one absent entry: it stops right
after the first one. -/
theorem assignLoop_absent_le_one (emps : List Employee) (n : String) (h : Nat) :
    ∀ (k : Nat) (cands asg : List Nat),
      ((assignLoop emps n h k cands asg).1.countP fun en => en.employee.isNone) ≤ 1 := by
  intro k
  induction k with
  | zero => intro cands asg; simp [assignLoop]
  | succ k ih =>
    intro cands asg
    cases cands with
    | nil => simp [assignLoop]
    | cons c cs =>
      simp only [assignLoop, List.countP_cons]
      simp
      exact ih _ _

/-- When the pool is smaller than min_staff, the loop emits one named
entry per pool member (a permutation of the pool) and then exactly one
absent entry. -/
theorem assignLoop_short (emps : List Employee) (n : String) (h : Nat) :
    ∀ (k : Nat) (cands asg : List Nat), cands.length < k →
      ∃ l : List Nat, (assignLoop emps n h k cands asg).1 =
          (l.map fun i => (⟨n, some (emps.getD i default).name⟩ : ScheduleEntry)) ++
            [⟨n, none⟩] ∧
        l.Perm cands := by
  intro k
  induction k with
  | zero => intro cands asg hlt; omega
  | succ k ih =>
    intro cands asg hlt
    cases cands with
    | nil => exact ⟨[], by simp [assignLoop], List.Perm.refl _⟩
    | cons c cs =>
      have hmem := pickMin_mem asg cs c
      have herase : ((c :: cs).erase (pickMin asg c cs)).length < k := by
        rw [List.length_erase_of_mem hmem]
        simp at hlt ⊢
        omega
      obtain ⟨l', hl', hperm⟩ :=
        ih ((c :: cs).erase (pickMin asg c cs))
          (asg.set (pickMin asg c cs) (asg.getD (pickMin asg c cs) 0 + h)) herase
      refine ⟨pickMin asg c cs :: l', ?_, ?_⟩
      · have hstep : (assignLoop emps n h (k + 1) (c :: cs) asg).1 =
            (⟨n, some (emps.getD (pickMin asg c cs) default).name⟩ : ScheduleEntry) ::
              (assignLoop emps n h k ((c :: cs).erase (pickMin asg c cs))
                (asg.set (pickMin asg c cs) (asg.getD (pickMin asg c cs) 0 + h))).1 := rfl
        rw [hstep, hl']
        rfl
      · exact (hperm.cons _).trans (List.perm_cons_erase hmem).symm

/-- If every shift's defaulted min_staff is 1, so is every lookup in the
min-staff map. -/
theorem minStaffOf_eq_one (shifts : List Shift)
    (hms : ∀ sh ∈ shifts, sh.minStaffD = 1) (n : String) :
    minStaffOf shifts n = 1 := by
  unfold minStaffOf
  cases hf : shifts.reverse.find? fun s => s.name == n with
  | none => rfl
  | some sh =>
    have hmem : sh ∈ shifts := List.mem_reverse.mp (List.mem_of_find?_eq_some hf)
    simp [hms sh hmem]

/-- With min_staff 1 a task emits exactly one entry, carrying its shift
name. -/
theorem processTask_one (emps : List Employee) (shifts : List Shift) (tot : Nat)
    (asg : List Nat) (t : GreedyTask)
    (h1 : minStaffOf shifts t.shiftName = 1) :
    ∃ en : ScheduleEntry, (processTask emps shifts tot asg t).1 = [en] ∧
      en.shift = t.shiftName := by
  unfold processTask
  cases hc : greedyCandidates emps asg tot t.day t.shiftName with
  | nil => exact ⟨⟨t.shiftName, none⟩, rfl, rfl⟩
  | cons c cs =>
    rw [h1]
    exact ⟨⟨t.shiftName, some (emps.getD (pickMin asg c cs) default).name⟩, rfl, rfl⟩

/-- With all min_staff 1 the run emits exactly one entry per task. -/
theorem runTasks_length_ms_one (emps : List Employee) (shifts : List Shift) (tot : Nat)
    (hms : ∀ sh ∈ shifts, sh.minStaffD = 1) :
    ∀ (order : List GreedyTask) (asg : List Nat),
      (runTasks emps shifts tot order asg).length = order.length := by
  intro order
  induction order with
  | nil => intro asg; rfl
  | cons t ts ih =>
    intro asg
    obtain ⟨en, hen, _⟩ :=
      processTask_one emps shifts tot asg t (minStaffOf_eq_one shifts hms t.shiftName)
    simp [runTasks, hen, ih]

/-- Every processed task leaves an entry with its day and shift name. -/
theorem runTasks_mem_of_task (emps : List Employee) (shifts : List Shift) (tot : Nat)
    (hms : ∀ sh ∈ shifts, sh.minStaffD = 1) :
    ∀ (order : List GreedyTask) (asg : List Nat), ∀ t ∈ order,
      ∃ en : ScheduleEntry, (t.day, en) ∈ runTasks emps shifts tot order asg ∧
        en.shift = t.shiftName := by
  intro order
  induction order with
  | nil => intro asg t ht; exact absurd ht (List.not_mem_nil t)
  | cons t' ts ih =>
    intro asg t ht
    obtain ⟨en', hen', hshift'⟩ :=
      processTask_one emps shifts tot asg t' (minStaffOf_eq_one shifts hms t'.shiftName)
    rcases List.mem_cons.mp ht with rfl | hts
    · refine ⟨en', ?_, hshift'⟩
      simp [runTasks, hen']
    · obtain ⟨en, hen, hshift⟩ :=
        ih (processTask emps shifts tot asg t').2 t hts
      refine ⟨en, ?_, hshift⟩
      simp [runTasks]
      right
      exact hen

/-- The canonical task enumeration has one task per (day, shift) pair. -/
theorem canonicalTasks_length (sch : Schema) :
    (canonicalTasks sch).length = sch.daysD.length * sch.shift_structure.length := by
  unfold canonicalTasks
  generalize sch.daysD = ds
  induction ds with
  | nil => simp
  | cons d ds ih => simp [ih, Nat.succ_mul, Nat.add_comm]

/-- Every (day, shift) pair is enumerated as a task. -/
theorem canonicalTasks_mem (sch : Schema) (d : String) (hd : d ∈ sch.daysD)
    (sh : Shift) (hsh : sh ∈ sch.shift_structure) :
    (⟨d, sh.name, sh.hours⟩ : GreedyTask) ∈ canonicalTasks sch := by
  unfold canonicalTasks
  rw [List.mem_flatMap]
  exact ⟨d, hd, List.mem_map.mpr ⟨sh, hsh, rfl⟩⟩

/-- C2 counterexample: on a valid schema with one day, one shift of
min_staff 2 and two available employees, the greedy output (the shuffle of
a single task is the task itself) holds two entries, not
|days| × |shift_structure| = 1. -/
theorem c2_counterexample :
    (build_basic_schedule schA (canonicalTasks schA)).length = 2 ∧
    schA.daysD.length * schA.shift_structure.length = 1 := by decide

/-- C2 amended: for every schema each (day, shift) pair contributes a slot
entry (employee possibly absent), and the total entry count equals
|days| × |shift_structure| exactly when every shift's defaulted min_staff
is 1 — with larger min_staff a single task contributes several entries. -/
theorem c2_entry_count (sch : Schema) (order : List GreedyTask)
    (hperm : order.Perm (canonicalTasks sch))
    (hms : ∀ sh ∈ sch.shift_structure, sh.minStaffD = 1) :
    (build_basic_schedule sch order).length =
      sch.daysD.length * sch.shift_structure.length ∧
    ∀ d ∈ sch.daysD, ∀ sh ∈ sch.shift_structure,
      ∃ en : ScheduleEntry, (d, en) ∈ build_basic_schedule sch order ∧
        en.shift = sh.name := by
  constructor
  · rw [build_basic_schedule, runTasks_length_ms_one _ _ _ hms, hperm.length_eq,
      canonicalTasks_length]
  · intro d hd sh hsh
    have ht : (⟨d, sh.name, sh.hours⟩ : GreedyTask) ∈ order :=
      hperm.mem_iff.mpr (canonicalTasks_mem sch d hd sh hsh)
    obtain ⟨en, hen, hshift⟩ :=
      runTasks_mem_of_task sch.employees sch.shift_structure (totalRequiredHours sch) hms
        order (List.replicate sch.employees.length 0) _ ht
    exact ⟨en, hen, hshift⟩

/-- Witness for C2 (amended) on a concrete min_staff-1 schema and the
canonical order. -/
theorem c2_entry_count_witness :
    (build_basic_schedule schW1 (canonicalTasks schW1)).length =
      schW1.daysD.length * schW1.shift_structure.length ∧
    ∀ d ∈ schW1.daysD, ∀ sh ∈ schW1.shift_structure,
      ∃ en : ScheduleEntry, (d, en) ∈ build_basic_schedule schW1 (canonicalTasks schW1) ∧
        en.shift = sh.name :=
  c2_entry_count schW1 (canonicalTasks schW1) (List.Perm.refl _) (by decide)

/-- C9: per task, the greedy assigner emits at most one absent entry; an
empty pool yields exactly the absent entry; a nonempty pool smaller than
min_staff yields one named entry per candidate (a permutation of the
pool) followed by exactly one absent entry, after which the task stops. -/
theorem c9_absent_per_task (emps : List Employee) (shifts : List Shift) (tot : Nat)
    (asg : List Nat) (t : GreedyTask) :
    ((processTask emps shifts tot asg t).1.countP fun en => en.employee.isNone) ≤ 1 ∧
    (greedyCandidates emps asg tot t.day t.shiftName = [] →
      (processTask emps shifts tot asg t).1 = [⟨t.shiftName, none⟩]) ∧
    (∀ (c : Nat) (cs : List Nat),
      greedyCandidates emps asg tot t.day t.shiftName = c :: cs →
      (c :: cs).length < minStaffOf shifts t.shiftName →
      ∃ l : List Nat, (processTask emps shifts tot asg t).1 =
          (l.map fun i => (⟨t.shiftName, some (emps.getD i default).name⟩ : ScheduleEntry)) ++
            [⟨t.shiftName, none⟩] ∧
        l.Perm (c :: cs)) := by
  refine ⟨?_, ?_, ?_⟩
  · unfold processTask
    cases hc : greedyCandidates emps asg tot t.day t.shiftName with
    | nil => simp
    | cons c cs => exact assignLoop_absent_le_one emps t.shiftName t.hours _ _ _
  · intro hc
    unfold processTask
    rw [hc]
  · intro c cs hc hlen
    unfold processTask
    rw [hc]
    exact assignLoop_short emps t.shiftName t.hours _ _ _ hlen

/-- Witness for C9 on a one-candidate pool against min_staff 2. -/
theorem c9_absent_per_task_witness :
    ((processTask schW1.employees [⟨"Day", 8, some 2, []⟩] 8 [0]
        ⟨"Monday", "Day", 8⟩).1.countP fun en => en.employee.isNone) ≤ 1 ∧
    (greedyCandidates schW1.employees [0] 8 "Monday" "Day" = [] →
      (processTask schW1.employees [⟨"Day", 8, some 2, []⟩] 8 [0]
        ⟨"Monday", "Day", 8⟩).1 = [⟨"Day", none⟩]) ∧
    (∀ (c : Nat) (cs : List Nat),
      greedyCandidates schW1.employees [0] 8 "Monday" "Day" = c :: cs →
      (c :: cs).length < minStaffOf [⟨"Day", 8, some 2, []⟩] "Day" →
      ∃ l : List Nat, (processTask schW1.employees [⟨"Day", 8, some 2, []⟩] 8 [0]
          ⟨"Monday", "Day", 8⟩).1 =
          (l.map fun i =>
            (⟨"Day", some (schW1.employees.getD i default).name⟩ : ScheduleEntry)) ++
            [⟨"Day", none⟩] ∧
        l.Perm (c :: cs)) :=
  c9_absent_per_task schW1.employees [⟨"Day", 8, some 2, []⟩] 8 [0] ⟨"Monday", "Day", 8⟩
